import Mathlib

/-!
Verification of the InvenTree excerpt: `InvenTree/plugin/models.py`
(PluginConfig, PluginSetting, NotificationUserSetting) and
`InvenTree/part/urls.py` (URL route tables), via a shallow embedding.
-/

/-! ## Python value model (for `str(...)` and `getattr`) -/

/-- A Python value as far as the metadata code observes it:
`str()` is applied to each metadata attribute. -/
inductive PyVal where
  | vNone
  | vStr (s : String)
  | vInt (n : Int)
deriving DecidableEq, Repr

/-- Python `str()` on the modelled values; `str(None)` is the string "None". -/
def pyStr : PyVal → String
  | .vNone => "None"
  | .vStr s => s
  | .vInt n => toString n

/-- A plugin instance as the model code observes it: a bag of attributes.
`getattr(p, name, None)` is lookup with default `vNone`. -/
structure PluginInstance where
  attrs : List (String × PyVal)
deriving DecidableEq, Repr

/-! ## PluginConfig.__init__ (models.py lines 67-87) -/

/-- The ten metadata attribute names listed in `PluginConfig.__init__`. -/
def metaKeys : List String :=
  ["slug", "human_name", "description", "author", "pub_date",
   "version", "website", "license", "package_path", "settings_url"]

/-- The inner `get_plugin_meta` closure: if `self.plugin` is set, return
`str(getattr(self.plugin, name, None))`; otherwise return Python `None`
(modelled as `Option.none`). -/
def get_plugin_meta (plugin : Option PluginInstance) (name : String) :
    Option String :=
  match plugin with
  | some p => some (pyStr ((p.attrs.lookup name).getD .vNone))
  | none => none

/-- The state `PluginConfig.__init__` leaves on the instance: the model
fields plus `__org_active`, `plugin` and `meta`. -/
structure PluginConfigState where
  key : String
  name : Option String
  active : Bool
  org_active : Bool
  plugin : Option PluginInstance
  meta : List (String × Option String)
deriving DecidableEq, Repr

/-- `PluginConfig.__init__`: records `__org_active := active`, resolves
`self.plugin := registry.plugins.get(self.key, None)` and builds the
`meta` dict over `metaKeys`.  `plugins` models `registry.plugins`. -/
def PluginConfig.init (plugins : List (String × PluginInstance))
    (key : String) (name : Option String) (active : Bool) :
    PluginConfigState :=
  let plugin := plugins.lookup key
  { key := key
    name := name
    active := active
    org_active := active
    plugin := plugin
    meta := metaKeys.map (fun k => (k, get_plugin_meta plugin k)) }

/-! ## PluginConfig.save (models.py lines 89-102) -/

/-- Observable effect of one `PluginConfig.save` call: whether the
underlying `super().save` ran, and how many times
`registry.reload_plugins()` was called. -/
structure SaveEffect where
  saved : Bool
  reloadCalls : Nat
deriving DecidableEq, Repr

/-- `PluginConfig.save`: `reload := kwargs.pop('no_reload', False)`;
always calls `super().save`; then, unless `reload` is set, calls
`registry.reload_plugins()` exactly when the active flag differs from
`__org_active` (checked as `is False` / `is True` on both sides). -/
def PluginConfig.save (active org_active : Bool)
    (kwargs : List (String × Bool)) : SaveEffect :=
  let reload := (kwargs.lookup "no_reload").getD false
  { saved := true
    reloadCalls :=
      if !reload &&
         ((active == false && org_active == true) ||
          (active == true && org_active == false)) then 1 else 0 }

/-! ## PluginConfig.mixins (models.py lines 58-63) -/

/-- Python exception kinds relevant to the `try/except` in `mixins`. -/
inductive PyErr where
  | attributeError
  | valueError
  | typeError
  | keyError
deriving DecidableEq, Repr

/-- `PluginConfig.mixins`: evaluates `self.plugin._mixinreg` (whose
outcome, value or exception, is the argument `read`); `AttributeError`
and `ValueError` are caught and replaced with the empty dict, any other
exception propagates. -/
def PluginConfig.mixins (read : Except PyErr (List (String × String))) :
    Except PyErr (List (String × String)) :=
  match read with
  | .ok m => .ok m
  | .error .attributeError => .ok []
  | .error .valueError => .ok []
  | .error e => .error e

/-! ## part/urls.py: route tables and dispatch -/

/-- The view handlers named in `part/urls.py`. -/
inductive Handler where
  | PartDetail
  | PartCategoryList
  | PartCategoryDetail
  | PartParamDetail
  | PartParamList
  | PartTemplateDetail
  | PartTemplateList
  | PartList
deriving DecidableEq, Repr

/-- Does the char list consist of one or more ASCII digits? -/
def allDigits (s : List Char) : Bool :=
  !s.isEmpty && s.all (fun c => '0' ≤ c && c ≤ '9')

/-- Match for the regex `^(?P<pk>[0-9]+)/$`: one or more digits followed
by a single trailing slash, consuming the whole string. -/
def matchPkSlash (s : List Char) : Bool :=
  match s.reverse with
  | '/' :: rest => allDigits rest.reverse
  | _ => false

/-- Match for the regex `^\?*[^/]*/?$` (the `PartList` pattern): any
string with no slash except possibly a single trailing one. -/
def matchPartList (s : List Char) : Bool :=
  let core := match s.reverse with
    | '/' :: rest => rest.reverse
    | _ => s
  core.all (fun c => c != '/')

/-- Match for the regex `^\?[^/]*/$`: a literal question mark, then
non-slash characters, then a trailing slash. -/
def matchParamQuery (s : List Char) : Bool :=
  match s with
  | '?' :: rest =>
    match rest.reverse with
    | '/' :: mid => mid.all (fun c => c != '/')
    | _ => false
  | _ => false

/-- Resolver for `partparampatterns`: detail `^(?P<pk>[0-9]+)/$`, then
`^\?[^/]*/$`, then the catch-all `^$`, in source order. -/
def paramDispatch (s : List Char) : Option Handler :=
  if matchPkSlash s then some .PartParamDetail
  else if matchParamQuery s then some .PartParamList
  else if s.isEmpty then some .PartParamList
  else none

/-- Resolver for `parttemplatepatterns`: detail `^(?P<pk>[0-9]+)/$`,
then the list pattern `^$`, in source order. -/
def templateDispatch (s : List Char) : Option Handler :=
  if matchPkSlash s then some .PartTemplateDetail
  else if s.isEmpty then some .PartTemplateList
  else none

/-- Resolver for `categorypatterns` (defined in the file but never
included in `urlpatterns`): `^category/(?P<pk>[0-9]+)/$` to the detail
view, then `^$` to the list view. -/
def categorypatternsDispatch (s : List Char) : Option Handler :=
  if "category/".toList.isPrefixOf s &&
     matchPkSlash (s.drop ("category/".toList.length)) then
    some .PartCategoryDetail
  else if s.isEmpty then some .PartCategoryList
  else none

/-- Django-style resolution through the top-level `urlpatterns`, in
source order.  A plain `url(...)` with a view matches on its (possibly
non-anchored) regex; an `include(...)` strips the matched prefix and
tries its sub-patterns, falling through to the next top-level pattern
when none of them match. -/
def dispatch (s : List Char) : Option Handler :=
  if matchPkSlash s then some .PartDetail
  else if "category/".toList.isPrefixOf s then some .PartCategoryList
  else if "parameters/".toList.isPrefixOf s &&
          (paramDispatch (s.drop ("parameters/".toList.length))).isSome then
    paramDispatch (s.drop ("parameters/".toList.length))
  else if "templates/".toList.isPrefixOf s &&
          (templateDispatch (s.drop ("templates/".toList.length))).isSome then
    templateDispatch (s.drop ("templates/".toList.length))
  else if matchPartList s then some .PartList
  else none

/-! ## Stored records and uniqueness constraints -/

/-- A stored `PluginConfig` row: `key` (declared `unique=True`),
`name` (nullable) and `active`. -/
structure PluginConfigRecord where
  key : String
  name : Option String
  active : Bool
deriving DecidableEq, Repr

/-- Insertion into the `PluginConfig` table under the declared
`unique=True` constraint on `key`: the insert fails (returns `none`)
when a stored row already has the same key. -/
def pluginConfigInsert (db : List PluginConfigRecord)
    (r : PluginConfigRecord) : Option (List PluginConfigRecord) :=
  if db.any (fun x => x.key == r.key) then none else some (db ++ [r])

/-- Table states reachable from the empty `PluginConfig` table by
successful inserts. -/
inductive PCReach : List PluginConfigRecord → Prop where
  | nil : PCReach []
  | ins {db db' : List PluginConfigRecord} {r : PluginConfigRecord} :
      PCReach db → pluginConfigInsert db r = some db' → PCReach db'

/-- A stored `PluginSetting` row: foreign key to a plugin config
(modelled by its primary key), plus the inherited `key`/`value`. -/
structure PluginSettingRecord where
  plugin : Nat
  key : String
  value : String
deriving DecidableEq, Repr

/-- Insertion into the `PluginSetting` table under the declared
`unique_together = [('plugin', 'key')]` constraint. -/
def pluginSettingInsert (db : List PluginSettingRecord)
    (r : PluginSettingRecord) : Option (List PluginSettingRecord) :=
  if db.any (fun x => x.plugin == r.plugin && x.key == r.key) then none
  else some (db ++ [r])

/-- Table states reachable from the empty `PluginSetting` table by
successful inserts. -/
inductive PSReach : List PluginSettingRecord → Prop where
  | nil : PSReach []
  | ins {db db' : List PluginSettingRecord} {r : PluginSettingRecord} :
      PSReach db → pluginSettingInsert db r = some db' → PSReach db'

/-- A stored `NotificationUserSetting` row: `method`, nullable foreign
key `user`, plus the inherited `key`/`value`. -/
structure NotificationUserSettingRecord where
  method : String
  user : Option Nat
  key : String
  value : String
deriving DecidableEq, Repr

/-- Insertion into the `NotificationUserSetting` table under the
declared `unique_together = [('method', 'user', 'key')]` constraint. -/
def nusInsert (db : List NotificationUserSettingRecord)
    (r : NotificationUserSettingRecord) :
    Option (List NotificationUserSettingRecord) :=
  if db.any (fun x => x.method == r.method && x.user == r.user &&
                      x.key == r.key) then none
  else some (db ++ [r])

/-- Table states reachable from the empty `NotificationUserSetting`
table by successful inserts. -/
inductive NUSReach : List NotificationUserSettingRecord → Prop where
  | nil : NUSReach []
  | ins {db db' : List NotificationUserSettingRecord}
      {r : NotificationUserSettingRecord} :
      NUSReach db → nusInsert db r = some db' → NUSReach db'

/-! ## get_setting_definition (models.py lines 199-225 and 248-254) -/

/-- A settings-definition dict (key to definition); contents opaque. -/
abbrev SettingsDict := List (String × String)

/-- The `plugin` kwarg of `PluginSetting.get_setting_definition`: either
a `PluginConfig` instance directly, or an `InvenTreePluginBase` subclass
instance, whose `plugin_config()` returns its config. -/
inductive PluginArg where
  | config (c : PluginConfigRecord)
  | basePlugin (cfg : PluginConfigRecord)
deriving DecidableEq, Repr

/-- `plugin.plugin_config()` for an `InvenTreePluginBase`, identity on a
`PluginConfig`. -/
def PluginArg.resolvedConfig : PluginArg → PluginConfigRecord
  | .config c => c
  | .basePlugin cfg => cfg

/-- The kwargs observed by `PluginSetting.get_setting_definition`:
an optional `settings` entry and an optional `plugin` entry. -/
structure GSDKwargs where
  settings : Option SettingsDict
  plugin : Option PluginArg
deriving DecidableEq, Repr

/-- `PluginSetting.get_setting_definition`, modelled as the transform it
applies to `kwargs` before delegating to the superclass: when
`'settings'` is absent, it pops `'plugin'` and, if one was given,
resolves it to its config (via `plugin_config()` for a plugin-base
instance) and sets
`kwargs['settings'] = registry.mixins_settings.get(plugin.key, {})`.
`mixins_settings` models `registry.mixins_settings`. -/
def PluginSetting.get_setting_definition
    (mixins_settings : List (String × SettingsDict))
    (kwargs : GSDKwargs) : GSDKwargs :=
  match kwargs.settings with
  | some _ => kwargs
  | none =>
    let pluginArg := kwargs.plugin
    let kwargs1 : GSDKwargs := { kwargs with plugin := none }
    match pluginArg with
    | none => kwargs1
    | some p =>
      { kwargs1 with
        settings :=
          some ((mixins_settings.lookup p.resolvedConfig.key).getD []) }

/-- The kwargs observed by
`NotificationUserSetting.get_setting_definition`. -/
structure NUSKwargs where
  settings : Option SettingsDict
deriving DecidableEq, Repr

/-- `NotificationUserSetting.get_setting_definition`, modelled as the
transform it applies to `kwargs` before delegating to the superclass:
it unconditionally sets `kwargs['settings'] = storage.user_settings`.
`user_settings` models `storage.user_settings`. -/
def NotificationUserSetting.get_setting_definition
    (user_settings : SettingsDict) (kwargs : NUSKwargs) : NUSKwargs :=
  { kwargs with settings := some user_settings }

/-! ## Theorems -/

/-- Claim C1: with the default save call (no `no_reload` kwarg), saving a
PluginConfig triggers exactly one `registry.reload_plugins` call when the
active flag has transitioned since construction, and none when it is
unchanged. -/
theorem pluginConfig_save_reloads_on_transition
    (active org_active : Bool) (kwargs : List (String × Bool))
    (h : kwargs.lookup "no_reload" = none) :
    (active ≠ org_active →
      (PluginConfig.save active org_active kwargs).reloadCalls = 1) ∧
    (active = org_active →
      (PluginConfig.save active org_active kwargs).reloadCalls = 0) := by
  unfold PluginConfig.save
  cases active <;> cases org_active <;> simp [h]

theorem pluginConfig_save_reloads_on_transition_witness :
    (PluginConfig.save true false []).reloadCalls = 1 ∧
    (PluginConfig.save false false []).reloadCalls = 0 :=
  ⟨(pluginConfig_save_reloads_on_transition true false [] rfl).1
     (by decide),
   (pluginConfig_save_reloads_on_transition false false [] rfl).2 rfl⟩

/-- Claim C2 (evaluating the code at the failing input): dispatching
`category/5/` through the top-level `urlpatterns` selects
`PartCategoryList`, not `PartCategoryDetail`, because `categorypatterns`
is never included; `category/` also selects `PartCategoryList`; the
orphaned `categorypatterns` table would have yielded the detail view. -/
theorem urlpatterns_category_detail_unreachable :
    dispatch "category/5/".toList = some Handler.PartCategoryList ∧
    dispatch "category/5/".toList ≠ some Handler.PartCategoryDetail ∧
    dispatch "category/".toList = some Handler.PartCategoryList ∧
    categorypatternsDispatch "category/5/".toList =
      some Handler.PartCategoryDetail := by
  decide

/-- Claim C3: constructing a PluginConfig whose key is absent from the
plugin registry succeeds with `plugin = None` and every `meta` value
equal to `None`. -/
theorem pluginConfig_init_absent_plugin_meta_none
    (plugins : List (String × PluginInstance)) (key : String)
    (name : Option String) (active : Bool)
    (h : plugins.lookup key = none) :
    (PluginConfig.init plugins key name active).plugin = none ∧
    ∀ kv ∈ (PluginConfig.init plugins key name active).meta,
      kv.2 = none := by
  refine ⟨by simp [PluginConfig.init, h], ?_⟩
  intro kv hkv
  simp only [PluginConfig.init, h, List.mem_map] at hkv
  obtain ⟨k, _, rfl⟩ := hkv
  rfl

theorem pluginConfig_init_absent_plugin_meta_none_witness :
    (PluginConfig.init [] "x" none false).plugin = none ∧
    (PluginConfig.init [] "x" none false).meta.lookup "author" =
      some none := by
  have h := pluginConfig_init_absent_plugin_meta_none [] "x" none false rfl
  exact ⟨h.1, by decide⟩

/-- Claim C4: `PluginConfig.mixins` catches `AttributeError` and
`ValueError` raised while reading the plugin mixin registry and returns
the empty mapping (it never raises for these error kinds). -/
theorem pluginConfig_mixins_catches_errors
    (read : Except PyErr (List (String × String)))
    (h : read = .error .attributeError ∨ read = .error .valueError) :
    PluginConfig.mixins read = .ok [] := by
  rcases h with h | h <;> subst h <;> rfl

theorem pluginConfig_mixins_catches_errors_witness :
    PluginConfig.mixins (.error .attributeError) = .ok [] :=
  pluginConfig_mixins_catches_errors (.error .attributeError) (Or.inl rfl)

/-- Claim C5: in every table state reachable by inserts, PluginConfig
keys are pairwise distinct, and inserting a record whose key is already
stored fails. -/
theorem pluginConfig_key_unique
    (db : List PluginConfigRecord) (h : PCReach db) :
    (db.map (fun r => r.key)).Nodup ∧
    ∀ r : PluginConfigRecord, (∃ r0 ∈ db, r0.key = r.key) →
      pluginConfigInsert db r = none := by
  constructor
  · induction h with
    | nil => simp
    | ins hprev hins ih =>
      unfold pluginConfigInsert at hins
      split at hins
      · exact absurd hins (by simp)
      · next hany =>
        injection hins with hins
        subst hins
        rw [List.map_append, List.nodup_append]
        refine ⟨ih, by simp, ?_⟩
        intro a ha hb
        simp only [List.map_cons, List.map_nil, List.mem_singleton] at hb
        subst hb
        simp only [List.mem_map] at ha
        obtain ⟨x, hx, hxa⟩ := ha
        exact hany (by simp only [List.any_eq_true]; exact ⟨x, hx, by simp [hxa]⟩)
  · rintro r ⟨r0, hr0, hkey⟩
    unfold pluginConfigInsert
    rw [if_pos]
    simp only [List.any_eq_true]
    exact ⟨r0, hr0, by simp [hkey]⟩

theorem pluginConfig_key_unique_witness :
    ((([⟨"pluginA", none, true⟩] :
        List PluginConfigRecord).map (fun r => r.key)).Nodup) ∧
    pluginConfigInsert [⟨"pluginA", none, true⟩]
      ⟨"pluginA", some "other", false⟩ = none := by
  have h := pluginConfig_key_unique [⟨"pluginA", none, true⟩]
    (PCReach.ins PCReach.nil rfl)
  exact ⟨h.1, h.2 ⟨"pluginA", some "other", false⟩
    ⟨⟨"pluginA", none, true⟩, by simp, rfl⟩⟩

/-- Claim C6: in every table state reachable by inserts, PluginSetting
rows have pairwise distinct `(plugin, key)` pairs, and inserting a
duplicate pair fails. -/
theorem pluginSetting_unique_together
    (db : List PluginSettingRecord) (h : PSReach db) :
    (db.map (fun r => (r.plugin, r.key))).Nodup ∧
    ∀ r : PluginSettingRecord,
      (∃ r0 ∈ db, r0.plugin = r.plugin ∧ r0.key = r.key) →
      pluginSettingInsert db r = none := by
  constructor
  · induction h with
    | nil => simp
    | ins hprev hins ih =>
      unfold pluginSettingInsert at hins
      split at hins
      · exact absurd hins (by simp)
      · next hany =>
        injection hins with hins
        subst hins
        rw [List.map_append, List.nodup_append]
        refine ⟨ih, by simp, ?_⟩
        intro a ha hb
        simp only [List.map_cons, List.map_nil, List.mem_singleton] at hb
        subst hb
        simp only [List.mem_map] at ha
        obtain ⟨x, hx, hxa⟩ := ha
        rw [Prod.mk.injEq] at hxa
        exact hany (by
          simp only [List.any_eq_true]
          exact ⟨x, hx, by simp [hxa.1, hxa.2]⟩)
  · rintro r ⟨r0, hr0, hp, hk⟩
    unfold pluginSettingInsert
    rw [if_pos]
    simp only [List.any_eq_true]
    exact ⟨r0, hr0, by simp [hp, hk]⟩

theorem pluginSetting_unique_together_witness :
    ((([⟨1, "API_KEY", "a"⟩] :
        List PluginSettingRecord).map (fun r => (r.plugin, r.key))).Nodup) ∧
    pluginSettingInsert [⟨1, "API_KEY", "a"⟩] ⟨1, "API_KEY", "b"⟩ =
      none := by
  have h := pluginSetting_unique_together [⟨1, "API_KEY", "a"⟩]
    (PSReach.ins PSReach.nil rfl)
  exact ⟨h.1, h.2 ⟨1, "API_KEY", "b"⟩
    ⟨⟨1, "API_KEY", "a"⟩, by simp, rfl, rfl⟩⟩

/-- Claim C7: NotificationUserSetting rows are unique on
`(method, user, key)` in every reachable table state (duplicate inserts
fail), and `get_setting_definition` always resolves the settings from the
global `storage.user_settings`, overriding any caller-supplied value. -/
theorem notificationUserSetting_unique_and_registry_settings
    (db : List NotificationUserSettingRecord) (h : NUSReach db) :
    ((db.map (fun r => (r.method, r.user, r.key))).Nodup ∧
     ∀ r : NotificationUserSettingRecord,
       (∃ r0 ∈ db, r0.method = r.method ∧ r0.user = r.user ∧
         r0.key = r.key) →
       nusInsert db r = none) ∧
    ∀ (user_settings : SettingsDict) (kwargs : NUSKwargs),
      (NotificationUserSetting.get_setting_definition
        user_settings kwargs).settings = some user_settings := by
  refine ⟨⟨?_, ?_⟩, fun _ _ => rfl⟩
  · induction h with
    | nil => simp
    | ins hprev hins ih =>
      unfold nusInsert at hins
      split at hins
      · exact absurd hins (by simp)
      · next hany =>
        injection hins with hins
        subst hins
        rw [List.map_append, List.nodup_append]
        refine ⟨ih, by simp, ?_⟩
        intro a ha hb
        simp only [List.map_cons, List.map_nil, List.mem_singleton] at hb
        subst hb
        simp only [List.mem_map] at ha
        obtain ⟨x, hx, hxa⟩ := ha
        rw [Prod.mk.injEq, Prod.mk.injEq] at hxa
        exact hany (by
          simp only [List.any_eq_true]
          exact ⟨x, hx, by simp [hxa.1, hxa.2.1, hxa.2.2]⟩)
  · rintro r ⟨r0, hr0, hm, hu, hk⟩
    unfold nusInsert
    rw [if_pos]
    simp only [List.any_eq_true]
    exact ⟨r0, hr0, by simp [hm, hu, hk]⟩

theorem notificationUserSetting_unique_and_registry_settings_witness :
    nusInsert [⟨"mail", some 7, "ENABLE", "1"⟩]
      ⟨"mail", some 7, "ENABLE", "0"⟩ = none ∧
    (NotificationUserSetting.get_setting_definition [("ENABLE", "d")]
      ⟨none⟩).settings = some [("ENABLE", "d")] := by
  have h := notificationUserSetting_unique_and_registry_settings
    [⟨"mail", some 7, "ENABLE", "1"⟩] (NUSReach.ins NUSReach.nil rfl)
  exact ⟨h.1.2 ⟨"mail", some 7, "ENABLE", "0"⟩
    ⟨⟨"mail", some 7, "ENABLE", "1"⟩, by simp, rfl, rfl, rfl⟩,
    h.2 [("ENABLE", "d")] ⟨none⟩⟩

/-- Claim C8: `PluginSetting.get_setting_definition` is dynamic: with no
caller-supplied `settings` and a `plugin` given, the settings are looked
up in `registry.mixins_settings` under the plugin's key (an
`InvenTreePluginBase` being converted to its `plugin_config()` first),
defaulting to the empty dict when the key is absent; a caller-supplied
`settings` kwarg bypasses the registry lookup entirely. -/
theorem pluginSetting_get_setting_definition_dynamic
    (mixins_settings : List (String × SettingsDict)) (kwargs : GSDKwargs) :
    (∀ s, kwargs.settings = some s →
      PluginSetting.get_setting_definition mixins_settings kwargs =
        kwargs) ∧
    (kwargs.settings = none → ∀ p, kwargs.plugin = some p →
      (PluginSetting.get_setting_definition mixins_settings kwargs).settings
        = some ((mixins_settings.lookup p.resolvedConfig.key).getD [])) := by
  constructor
  · intro s hs
    unfold PluginSetting.get_setting_definition
    rw [hs]
  · intro hs p hp
    unfold PluginSetting.get_setting_definition
    rw [hs, hp]

theorem pluginSetting_get_setting_definition_dynamic_witness :
    (PluginSetting.get_setting_definition [("a", [("S", "d")])]
      ⟨none, some (.basePlugin ⟨"a", none, true⟩)⟩).settings =
        some [("S", "d")] ∧
    PluginSetting.get_setting_definition [("a", [("S", "d")])]
      ⟨some [], none⟩ = ⟨some [], none⟩ ∧
    (PluginSetting.get_setting_definition [("a", [("S", "d")])]
      ⟨none, some (.config ⟨"b", none, true⟩)⟩).settings = some [] := by
  have h1 := (pluginSetting_get_setting_definition_dynamic
    [("a", [("S", "d")])] ⟨none, some (.basePlugin ⟨"a", none, true⟩)⟩).2
    rfl _ rfl
  have h2 := (pluginSetting_get_setting_definition_dynamic
    [("a", [("S", "d")])] ⟨some [], none⟩).1 [] rfl
  have h3 := (pluginSetting_get_setting_definition_dynamic
    [("a", [("S", "d")])] ⟨none, some (.config ⟨"b", none, true⟩)⟩).2
    rfl _ rfl
  exact ⟨by rw [h1]; rfl, h2, by rw [h3]; rfl⟩

/-- Claim C9: calling save with `no_reload=True` never calls
`registry.reload_plugins`, whatever the active flag and its original
value; only the underlying persistence happens. -/
theorem pluginConfig_save_no_reload_flag
    (active org_active : Bool) (kwargs : List (String × Bool))
    (h : kwargs.lookup "no_reload" = some true) :
    (PluginConfig.save active org_active kwargs).reloadCalls = 0 ∧
    (PluginConfig.save active org_active kwargs).saved = true := by
  unfold PluginConfig.save
  simp [h]

theorem pluginConfig_save_no_reload_flag_witness :
    (PluginConfig.save true false [("no_reload", true)]).reloadCalls = 0 ∧
    (PluginConfig.save true false [("no_reload", true)]).saved = true :=
  pluginConfig_save_no_reload_flag true false [("no_reload", true)] rfl

/-- Claim C10: when the key is present in the registry, every `meta`
value is the string produced by `str(...)` of the attribute; an absent
attribute yields the four-character string "None", not Python `None`. -/
theorem pluginConfig_meta_values_are_strings
    (plugins : List (String × PluginInstance)) (key : String)
    (name : Option String) (active : Bool) (p : PluginInstance)
    (h : plugins.lookup key = some p) :
    (∀ kv ∈ (PluginConfig.init plugins key name active).meta,
      kv.2 = some (pyStr ((p.attrs.lookup kv.1).getD .vNone))) ∧
    (∀ kv ∈ (PluginConfig.init plugins key name active).meta,
      p.attrs.lookup kv.1 = none → kv.2 = some "None") := by
  have hmem : ∀ kv ∈ (PluginConfig.init plugins key name active).meta,
      kv.2 = some (pyStr ((p.attrs.lookup kv.1).getD .vNone)) := by
    intro kv hkv
    simp only [PluginConfig.init, h, List.mem_map] at hkv
    obtain ⟨k, _, rfl⟩ := hkv
    rfl
  refine ⟨hmem, fun kv hkv hnone => ?_⟩
  rw [hmem kv hkv, hnone]
  rfl

theorem pluginConfig_meta_values_are_strings_witness :
    (PluginConfig.init [("k", ⟨[]⟩)] "k" none true).meta.lookup "slug" =
      some (some "None") := by
  have h := pluginConfig_meta_values_are_strings [("k", ⟨[]⟩)] "k" none
    true ⟨[]⟩ rfl
  have hslug := h.2 ("slug", some "None") (by decide) rfl
  decide
